import Mathlib

/-!
Shallow embedding of `harness/context_manager.py`: the testbed provisioning
context (`TestbedContextManager`) and the per-instance task execution context
(`TaskEnvContextManager`).

External commands are modelled by an oracle mapping a command string to a
`CmdBehavior` (how long the command runs and with which exit code / outputs,
or an unexpected error).  `subprocess.run` and `ExecWrapper.__call__` are
embedded as functions from that outcome to `Except PyExc ...`, where `PyExc`
is the relevant slice of the Python exception hierarchy
(`subprocess.CalledProcessError`, `subprocess.TimeoutExpired`, anything else).
Per-instance log files are modelled as lists of `LogTok` entries, one per
`f.write` of the source; the filesystem, where a claim needs it, is an
explicit piece of state.
-/

/-- Result object of a completed `subprocess.run` call. -/
structure CompletedProcess where
  returncode : Int
  stdout : String
  stderr : String
deriving DecidableEq, Repr

/-- Behavior of the external command behind a command string: either it runs
for some wall-clock duration and completes with a result, or it raises an
unexpected error inside `subprocess.run`. -/
inductive CmdBehavior where
  | runs (duration : Nat) (result : CompletedProcess)
  | errors (msg : String)
deriving DecidableEq, Repr

/-- Observable outcome of one `subprocess.run` invocation, after the timeout
argument (if any) is taken into account. -/
inductive CmdOutcome where
  | completes (p : CompletedProcess)
  | timesOut
  | errors (msg : String)
deriving DecidableEq, Repr

/-- The Python exceptions relevant to `context_manager.py`. -/
inductive PyExc where
  | calledProcessError (returncode : Int)
  | timeoutExpired
  | otherError (msg : String)
deriving DecidableEq, Repr

/-- A command times out exactly when a timeout was passed and the wall-clock
duration of the command exceeds it. -/
def commandOutcome (b : CmdBehavior) (timeout : Option Nat) : CmdOutcome :=
  match b, timeout with
  | .errors m, _ => .errors m
  | .runs d p, some t => if t < d then .timesOut else .completes p
  | .runs _ p, none => .completes p

/-- Embedding of `subprocess.run(cmd, check=..., timeout=..., ...)`: with
`check=True` a non-zero exit raises `CalledProcessError`; exceeding the
timeout raises `TimeoutExpired`; other errors raise as themselves. -/
def subprocess_run (check : Bool) (o : CmdOutcome) : Except PyExc CompletedProcess :=
  match o with
  | .completes p =>
      if check ∧ p.returncode ≠ 0 then .error (.calledProcessError p.returncode)
      else .ok p
  | .timesOut => .error .timeoutExpired
  | .errors m => .error (.otherError m)

/-- Embedding of `ExecWrapper.__call__` (context_manager.py lines 49-60): it
catches only `subprocess.CalledProcessError`; when `raise_error` is true the
exception is re-raised, otherwise the call falls through and returns `None`.
`TimeoutExpired` and any other exception always propagate to the caller. -/
def exec_call (check raise_error : Bool) (o : CmdOutcome) :
    Except PyExc (Option CompletedProcess) :=
  match subprocess_run check o with
  | .ok p => .ok (some p)
  | .error (.calledProcessError c) =>
      if raise_error then .error (.calledProcessError c) else .ok none
  | .error e => .error e

/-- One log-file record, one constructor per distinct `f.write` in the
source. -/
inductive LogTok where
  | preInstallSection (cmd stdout stderr : String)
  | installSection (cmd stdout stderr : String)
  | installFailLog
  | installPassLog
  | installTimeoutLog
  | resetFailedLog (baseCommit : String)
  | applyPatchFailNoneLog
  | applyPatchFailLog (patchType : String)
  | applyPatchPassLog (patchType : String)
  | testScriptLog (cmd : String)
  | testOutputLog (stdout stderr : String)
  | testsFailedLog
  | testsPassedLog
  | testsTimeoutLog
  | testsErrorLog (msg : String)
deriving DecidableEq, Repr

/-- The per-(repo, version) entry of `MAP_VERSION_TO_INSTALL`.  Keys that may
be absent from the Python dict are `Option`s; `packages` defaults to the
empty string when absent (line 385 of the source). -/
structure InstallSpecEntry where
  pre_install : Option (List String) := none
  install : Option String := none
  packages : Option String := none
  python : String := ""
  no_use_env : Option Bool := none
  ocaml : String := ""
  deps_only_packages : String := ""
  pip_packages : Option String := none
deriving DecidableEq, Repr

/-- Character-level embedding of Python `str.startswith`. -/
def strStartsWith (s pre : String) : Bool :=
  pre.data.isPrefixOf s.data

/-- Character-level embedding of the Python slice `s[n:]`. -/
def strDrop (s : String) (n : Nat) : String :=
  String.mk (s.data.drop n)

/-- Character-level embedding of the `str.replace` call the source uses to
build environment names: every `/` becomes `__`. -/
def replaceSlashes (s : String) : String :=
  String.mk (s.data.flatMap (fun c => if c = '/' then ['_', '_'] else [c]))

/-- Embedding of `TaskEnvContextManager.__init__` lines 592-600: the
activation wrapper chosen from the version prefix.  `opam_root` empty models
a falsy (`None`) `self.opam_root`. -/
def cmd_activate_then (version conda_path venv opam_path opam_root switch : String)
    (cmd : String) : String :=
  if strStartsWith version "coq." then
    let root_arg := if opam_root ≠ "" then "--root=" ++ opam_root else ""
    opam_path ++ " switch " ++ root_arg ++ " " ++ switch ++ " && eval $(" ++
      opam_path ++ " env) && echo \x27activate successful\x27 && " ++ cmd
  else if strStartsWith version "docker-coq." then
    "docker run -v .:/home/coq/workdir -it coqorg/coq:" ++ strDrop version 11 ++ " " ++ cmd
  else
    ". " ++ conda_path ++ "/bin/activate " ++ venv ++
      " && echo \x27activate successful\x27 && " ++ cmd

/-- The pre-install loop of `run_install_task` (lines 683-702).  Each command
is run through `self.exec` with its constructor defaults `check=True`,
`raise_error=True` and the stage timeout; on a captured non-zero exit the
stage would log `INSTALL_FAIL` and return `False` (returning `.ok (false, _)`
here), and any exception raised by the exec propagates (this loop sits
outside the `try` of lines 712-745).  An exec returning `None` is impossible
with `raise_error=True`; the Python code would die with an `AttributeError`
on `.stdout`, embedded as `otherError`. -/
def run_pre_installs (activate : String → String) (timeout : Option Nat)
    (oracle : String → CmdBehavior) : List String → Except PyExc (Bool × List LogTok)
  | [] => .ok (true, [])
  | p :: rest =>
    let c := activate p
    match exec_call true true (commandOutcome (oracle c) timeout) with
    | .error e => .error e
    | .ok none => .error (.otherError "AttributeError: NoneType")
    | .ok (some cp) =>
      let sec := LogTok.preInstallSection c cp.stdout cp.stderr
      if cp.returncode ≠ 0 then
        .ok (false, [sec, .installFailLog])
      else
        match run_pre_installs activate timeout oracle rest with
        | .error e => .error e
        | .ok (b, logs) => .ok (b, sec :: logs)

/-- Embedding of `TaskEnvContextManager.run_install_task` (lines 670-745).
After the pre-install loop, a missing `install` key is a no-op success.  The
declared install command is run inside a `try` whose only handler is
`except subprocess.TimeoutExpired` (line 738); since the exec keeps its
constructor default `check=True`, a non-zero exit of the install command
raises `CalledProcessError`, which is not caught here and escapes the method
(the `returncode != 0` branch at lines 722-729 is unreachable). -/
def run_install_task (spec : InstallSpecEntry) (activate : String → String)
    (timeout : Option Nat) (oracle : String → CmdBehavior) :
    Except PyExc (Bool × List LogTok) :=
  match run_pre_installs activate timeout oracle (spec.pre_install.getD []) with
  | .error e => .error e
  | .ok (false, logs) => .ok (false, logs)
  | .ok (true, logs) =>
    match spec.install with
    | none => .ok (true, logs)
    | some ic =>
      let c := activate ic
      match exec_call true true (commandOutcome (oracle c) timeout) with
      | .error .timeoutExpired => .ok (false, logs ++ [.installTimeoutLog])
      | .error e => .error e
      | .ok none => .error (.otherError "AttributeError: NoneType")
      | .ok (some cp) =>
        let sec := LogTok.installSection c cp.stdout cp.stderr
        if cp.returncode ≠ 0 then .ok (false, logs ++ [sec, .installFailLog])
        else .ok (true, logs ++ [sec, .installPassLog])

/-- Embedding of `TaskEnvContextManager.run_tests_task` (lines 803-848).  The
test command is run with `check=False`; `except subprocess.TimeoutExpired`
logs `TESTS_TIMEOUT` and `except Exception` logs `TESTS_ERROR`, and both
return `False`.  On a completed run the boolean result is `True` regardless
of the exit code; the exit code only selects the `TESTS_FAILED` versus
`TESTS_PASSED` log record. -/
def run_tests_task (test_cmd : String) (activate : String → String)
    (timeout : Option Nat) (oracle : String → CmdBehavior) : Bool × List LogTok :=
  let c := activate test_cmd
  let pre := [LogTok.testScriptLog c]
  match exec_call false true (commandOutcome (oracle c) timeout) with
  | .ok (some p) =>
      (true, pre ++ [.testOutputLog p.stdout p.stderr] ++
        (if p.returncode ≠ 0 then [.testsFailedLog] else [.testsPassedLog]))
  | .ok none => (false, pre ++ [.testsErrorLog "AttributeError: NoneType"])
  | .error .timeoutExpired => (false, pre ++ [.testsTimeoutLog])
  | .error (.calledProcessError rc) =>
      (false, pre ++ [.testsErrorLog ("CalledProcessError " ++ toString rc)])
  | .error (.otherError m) => (false, pre ++ [.testsErrorLog m])

/-- The fixed git command sequence of `reset_task_env` (lines 649-658), all
run with `check=True` and `raise_error=True` and no timeout. -/
def resetCommands (base_commit : String) : List String :=
  ["git restore .",
   "git reset HEAD .",
   "git clean -fdx",
   "git submodule foreach --recursive git clean -fdx",
   "git -c advice.detachedHead=false checkout --recurse-submodules -f " ++ base_commit,
   "git submodule update --init --recursive"]

/-- Runs a command list through the exec wrapper and reports the first
exception raised, if any. -/
def firstExecError (oracle : String → CmdBehavior) : List String → Option PyExc
  | [] => none
  | c :: rest =>
    match exec_call true true (commandOutcome (oracle c) none) with
    | .error e => some e
    | .ok _ => firstExecError oracle rest

/-- Embedding of `TaskEnvContextManager.reset_task_env` (lines 631-668).  The
whole body sits in a `try` whose handler is `except Exception`, so every
exception from the git commands is caught, a `RESET_FAILED` record is written
and `False` is returned; the initial gitignore cleanup command is run with
`raise_error=False` so its captured non-zero exit is swallowed. -/
def reset_task_env (gitignore_exists : Bool) (base_commit : String)
    (oracle : String → CmdBehavior) : Bool × List LogTok :=
  let rmIgnored := "git ls-files --ignored --exclude-standard -o -z | xargs -0 -r rm -rf"
  let step0 : Option PyExc :=
    if gitignore_exists then
      match exec_call true false (commandOutcome (oracle rmIgnored) none) with
      | .error e => some e
      | .ok _ => none
    else none
  match step0 with
  | some _ => (false, [.resetFailedLog base_commit])
  | none =>
    match firstExecError oracle (resetCommands base_commit) with
    | some _ => (false, [.resetFailedLog base_commit])
    | none => (true, [])

/-- Working state of one task environment: the set of file paths the patch
logic touches, the tracked content of the git working tree (abstract type
`T`), and the per-instance log. -/
structure WorkState (T : Type) where
  files : List String
  tree : T
  log : List LogTok

/-- Writing a file puts its path on disk (`open(path, "w")`). -/
def fsWrite (fs : List String) (p : String) : List String :=
  if p ∈ fs then fs else fs ++ [p]

/-- Embedding of `os.remove`. -/
def fsRemove (fs : List String) (p : String) : List String :=
  fs.filter (fun q => q ≠ p)

/-- Embedding of `str.rstrip("/")`. -/
def rstripSlashes (s : String) : String :=
  String.mk (((s.data.reverse).dropWhile (fun c => c = '/')).reverse)

/-- Embedding of `os.path.dirname` for paths whose directory part is a plain
nonempty prefix (the shape `apply_patch` uses). -/
def posixDirname (s : String) : String :=
  String.mk ((((s.data.reverse).dropWhile (fun c => c ≠ '/')).drop 1).reverse)

/-- The temporary patch file path of `apply_patch` (lines 769-772): the
parent directory of the testbed plus a name built from the instance id and
the patch type. -/
def patchPath (instance_id testbed patch_type : String) : String :=
  posixDirname (rstripSlashes testbed) ++ "/" ++
    ("temp_" ++ instance_id ++ "_" ++ patch_type ++ ".patch")

/-- Embedding of `TaskEnvContextManager.apply_patch` (lines 747-801).  The
external `git apply -v [-R]` call is modelled by `sem patchText revert tree`:
`some tree2` is a zero exit that rewrites the tracked tree, `none` is a
non-zero exit that leaves the tree unchanged (the exec uses `check=False`
and `raise_error=False`, so no exception arises from the apply command).
The temporary patch file is written before the apply and removed right after
it, before the return-code check, on both paths. -/
def apply_patch {T : Type} (sem : String → Bool → T → Option T)
    (instance_id testbed : String) (patch : Option String) (patch_type : String)
    (revert : Bool) (s : WorkState T) : Bool × WorkState T :=
  match patch with
  | none => (false, { s with log := s.log ++ [.applyPatchFailNoneLog] })
  | some p =>
    let patch_path := patchPath instance_id testbed patch_type
    let fs1 := fsWrite s.files patch_path
    match sem p revert s.tree with
    | some t2 =>
        (true, { files := fsRemove fs1 patch_path, tree := t2,
                 log := s.log ++ [.applyPatchPassLog patch_type] })
    | none =>
        (false, { files := fsRemove fs1 patch_path, tree := s.tree,
                  log := s.log ++ [.applyPatchFailLog patch_type] })

/-- Log file path chosen in `TaskEnvContextManager.__init__` (lines 586-591):
the eval-mode name overwrites the plain name when `is_eval` is set. -/
def log_file_name (log_dir instance_id model : String) (is_eval : Bool) : String :=
  if is_eval then log_dir ++ "/" ++ instance_id ++ "." ++ model ++ ".eval.log"
  else log_dir ++ "/" ++ instance_id ++ ".log"

/-- The metadata header written by `TaskEnvContextManager.__enter__`
(lines 623-628), with the extra model line in eval mode. -/
def logHeader (instance_id testbed venv model : String) (is_eval : Bool) : String :=
  "Task Metadata:\n\t- Instance ID: " ++ instance_id ++
    "\n\t- Testbed: " ++ testbed ++ "\n\t- Virtual Env.: " ++ venv ++ "\n" ++
    (if is_eval then "\t- Evaluation Model: " ++ model ++ "\n" else "")

/-- Embedding of `TaskEnvContextManager.__enter__` on the filesystem (a map
from path to file content): `open(self.log_file, "w")` truncates, so the
entry at the log path becomes exactly the fresh header and every other path
is untouched. -/
def task_env_enter (fs : String → Option String)
    (log_dir instance_id model testbed venv : String) (is_eval : Bool) :
    String → Option String :=
  fun p =>
    if p = log_file_name log_dir instance_id model is_eval then
      some (logHeader instance_id testbed venv model is_eval)
    else fs p

/-- One provisioning side effect of `TestbedContextManager.__enter__`: a git
clone of a repo into the shared working root, or an executed shell command. -/
inductive ProvisionCmd where
  | cloneRepo (repo path : String)
  | runShell (cmd : String)
deriving DecidableEq, Repr

/-- The environment name of a (repo, version) group (line 340). -/
def envName (repo version : String) : String :=
  replaceSlashes repo ++ "__" ++ version

/-- The recipe block of `TestbedContextManager.__enter__` (lines 384-476):
the kind-specific creation and installation commands for one (repo, version)
group, followed by the optional extra pip installation.  `exec_cmd`,
`path_activate`, `opam_exec_cmd`, `root_arg` and `path_to_reqs` are the
strings the surrounding setup code computed. -/
def recipeCmds (repo version : String) (install : InstallSpecEntry)
    (exec_cmd path_activate opam_exec_cmd root_arg testbed path_to_reqs : String) :
    List ProvisionCmd :=
  let env_name := envName repo version
  let repo_path := testbed ++ "/" ++ env_name
  let pkgs := install.packages.getD ""
  let base : List ProvisionCmd :=
    if pkgs = "requirements.txt" then
      [.runShell (exec_cmd ++ " create -n " ++ env_name ++ " python=" ++
         install.python ++ " -y"),
       .runShell (". " ++ path_activate ++ " " ++ env_name ++
         " && echo \x27activate successful\x27 && pip install -r " ++ path_to_reqs)]
    else if pkgs = "environment.yml" then
      if install.no_use_env.getD false then
        [.runShell (exec_cmd ++ " create -c conda-forge -n " ++ env_name ++
           " python=" ++ install.python ++ " -y"),
         .runShell (exec_cmd ++ " env update -f " ++ path_to_reqs)]
      else
        [.runShell (exec_cmd ++ " env create --file " ++ path_to_reqs)]
    else if strStartsWith version "coq." then
      [.runShell (opam_exec_cmd ++ " switch create -y " ++ root_arg ++ " " ++
         env_name ++ " " ++ install.ocaml)] ++
      (if install.packages.getD "" ≠ "" then
        [.runShell (opam_exec_cmd ++ " install -y " ++ root_arg ++ " --switch=" ++
           env_name ++ " " ++ install.packages.getD "")]
       else []) ++
      (if install.deps_only_packages ≠ "" then
        [.runShell (opam_exec_cmd ++ " install -y --deps-only " ++ root_arg ++
           " --switch=" ++ env_name ++ " " ++ install.deps_only_packages)]
       else [])
    else if strStartsWith version "docker-coq." then
      [.runShell ("docker run -d --name " ++ env_name ++ " coqorg/coq:" ++
         strDrop version 11 ++ " -v " ++ repo_path ++ ":/home/coq/workdir")]
    else
      [.runShell (exec_cmd ++ " create -n " ++ env_name ++ " python=" ++
         install.python ++ " " ++ pkgs ++ " -y")]
  base ++
    (match install.pip_packages with
     | some pp =>
        [.runShell (". " ++ path_activate ++ " " ++ env_name ++
          " && pip install " ++ pp)]
     | none => [])

/-- Embedding of the per-(repo, version) loop body of
`TestbedContextManager.__enter__` (lines 334-476): clone the repo if its
checkout is absent; then dispatch on the version prefix.  An opam switch or
conda environment whose name is already listed is skipped with `continue`
(no commands); an existing docker container of the target name is first
removed with `docker rm` and then the recipe (which recreates it) still
runs. -/
def setupGroupCmds (repo version : String) (install : InstallSpecEntry)
    (repo_path_exists : Bool) (switch_list container_list env_list : List String)
    (exec_cmd path_activate opam_exec_cmd root_arg testbed path_to_reqs : String) :
    List ProvisionCmd :=
  let env_name := envName repo version
  let repo_path := testbed ++ "/" ++ env_name
  let cloneCmds : List ProvisionCmd :=
    if repo_path_exists then [] else [.cloneRepo repo repo_path]
  let recipe := recipeCmds repo version install exec_cmd path_activate
    opam_exec_cmd root_arg testbed path_to_reqs
  cloneCmds ++
    (if strStartsWith version "coq." then
      (if env_name ∈ switch_list then [] else recipe)
     else if strStartsWith version "docker-coq." then
      (if env_name ∈ container_list then
        [.runShell ("docker rm " ++ env_name)]
       else []) ++ recipe
     else
      (if env_name ∈ env_list then [] else recipe))

/-- One teardown side effect of `TestbedContextManager.__exit__`. -/
inductive TeardownAction where
  | cleanupDir (dir : String)
  | execCmd (cmd : String)
deriving DecidableEq, Repr

/-- Embedding of `TestbedContextManager.__exit__` (lines 526-537): it cleans
up `temp_dir_work` and `temp_dir_conda` when the harness created them, and
stops then removes the harness-managed docker container.  `temp_dir_opam` is
accepted here to mirror the attribute set in `__init__`, but the source
method never calls its `cleanup()`, so no teardown action mentions it. -/
def testbed_exit (temp_dir_work temp_dir_conda temp_dir_opam : Option String)
    (docker_container_name : Option String) : List TeardownAction :=
  (match temp_dir_work with | some d => [.cleanupDir d] | none => []) ++
  (match temp_dir_conda with | some d => [.cleanupDir d] | none => []) ++
  (match docker_container_name with
   | some c => [.execCmd ("docker stop " ++ c), .execCmd ("docker rm " ++ c)]
   | none => [])

/-- The fields of a task instance that the grouping logic of
`TestbedContextManager.__init__` reads.  A missing `version` key is `none`
(line 156). -/
structure TaskInstance where
  instance_id : String
  repo : String
  version : Option String
  created_at : Nat
deriving DecidableEq, Repr

/-- Embedding of line 142: sort the task instances by `created_at`
descending (Python sort is stable, as is `List.mergeSort`). -/
def sortTaskInstances (l : List TaskInstance) : List TaskInstance :=
  l.mergeSort (fun a b => decide (b.created_at ≤ a.created_at))

/-- The inner dict `self.task_instances_grouped[repo]`: version key to the
instances appended under it, in insertion order. -/
abbrev VersionGroups := List (Option String × List TaskInstance)

/-- The outer dict `self.task_instances_grouped`: repo key to its version
groups, in insertion order. -/
abbrev RepoGroups := List (String × VersionGroups)

/-- Appending one instance under its version key, creating the entry if the
key is new (lines 159-161). -/
def addToVersionGroups (vgs : VersionGroups) (v : Option String)
    (i : TaskInstance) : VersionGroups :=
  match vgs with
  | [] => [(v, [i])]
  | (v2, is2) :: rest =>
      if v2 = v then (v2, is2 ++ [i]) :: rest
      else (v2, is2) :: addToVersionGroups rest v i

/-- Appending one instance under its repo key, creating the entry if the key
is new (lines 155-161). -/
def addToRepoGroups (rgs : RepoGroups) (i : TaskInstance) : RepoGroups :=
  match rgs with
  | [] => [(i.repo, [(i.version, [i])])]
  | (r, vgs) :: rest =>
      if r = i.repo then (r, addToVersionGroups vgs i.version i) :: rest
      else (r, vgs) :: addToRepoGroups rest i

/-- The grouping loop of `TestbedContextManager.__init__` (lines 147-161),
run over the sorted instance list. -/
def group_task_instances (l : List TaskInstance) : RepoGroups :=
  l.foldl addToRepoGroups []

/-- A version key survives the custom restraints when it is not `None` and
has install instructions for the repo. -/
def keepVersion (has_spec : String → String → Bool) (r : String)
    (v : Option String) : Bool :=
  match v with
  | none => false
  | some vv => has_spec r vv

/-- Embedding of `TestbedContextManager._custom_restraints` (lines 510-524):
for every repo, the `None` version group is deleted, as is every version with
no entry in `MAP_VERSION_TO_INSTALL[repo]` (modelled by the predicate
`has_spec`). -/
def custom_restraints (has_spec : String → String → Bool) (rgs : RepoGroups) :
    RepoGroups :=
  rgs.map (fun rg => (rg.1, rg.2.filter (fun vg => keepVersion has_spec rg.1 vg.1)))

/-- All instances held by a version-group map. -/
def flattenVersionGroups (vgs : VersionGroups) : List TaskInstance :=
  vgs.flatMap Prod.snd

/-- All instances held by the grouped structure. -/
def flattenRepoGroups (rgs : RepoGroups) : List TaskInstance :=
  rgs.flatMap (fun rg => flattenVersionGroups rg.2)

/-- An instance survives the custom restraints exactly when it has a version
and that version has install instructions for its repo. -/
def keepInstance (has_spec : String → String → Bool) (i : TaskInstance) : Bool :=
  keepVersion has_spec i.repo i.version

/-- Well-formedness of one version-group map: every instance stored under a
version key has that version (and the ambient repo). -/
def VGWF (r : String) (vgs : VersionGroups) : Prop :=
  ∀ v is2, (v, is2) ∈ vgs → ∀ i ∈ is2, i.repo = r ∧ i.version = v

/-- Well-formedness of the grouped structure: every instance sits under its
own repo and version keys. -/
def RGWF (rgs : RepoGroups) : Prop :=
  ∀ r vgs, (r, vgs) ∈ rgs → VGWF r vgs

/-- A concrete install spec with only an `install` command declared. -/
def installSpecMake : InstallSpecEntry := { install := some "make install" }

/-- A concrete install spec with a pre-install command and an install
command. -/
def installSpecPre : InstallSpecEntry :=
  { pre_install := some ["apt-get update"], install := some "make install" }

/-- A concrete activation wrapper for a conda-style version string. -/
def activateTest : String → String :=
  cmd_activate_then "1.2" "/opt/conda" "repo__1.2" "/opt/opam" "" "repo__1.2"

/-- Oracle: every command completes quickly with exit code 0. -/
def oraclePass : String → CmdBehavior := fun _ => .runs 5 ⟨0, "ok", ""⟩

/-- Oracle: every command completes quickly with exit code 2. -/
def oracleFail2 : String → CmdBehavior := fun _ => .runs 5 ⟨2, "", "boom"⟩

/-- Oracle: every command completes quickly with exit code 1. -/
def oracleFail1 : String → CmdBehavior := fun _ => .runs 3 ⟨1, "", "err"⟩

/-- Oracle: every command sleeps for 100 seconds, longer than the 10-second
stage timeout used in the concrete theorems. -/
def oracleSleep : String → CmdBehavior := fun _ => .runs 100 ⟨0, "", ""⟩

/-- A patch-application semantics on integer trees used to witness the
revert round trip: forward application adds one, reverse application
subtracts one. -/
def semShift : String → Bool → Int → Option Int :=
  fun _ rev t => if rev then some (t - 1) else some (t + 1)

/-- A concrete install-spec registry for the grouping witness. -/
def hasSpecW : String → String → Bool :=
  fun r v => (r == "sympy/sympy") && (v == "1.0")

/-- Concrete task instances for the grouping witness. -/
def instA : TaskInstance := ⟨"sympy-1", "sympy/sympy", some "1.0", 5⟩

/-- Second concrete task instance, same group as `instA`. -/
def instB : TaskInstance := ⟨"sympy-2", "sympy/sympy", some "1.0", 3⟩

/-- Third concrete task instance, dropped by the custom restraints because
its version is missing. -/
def instC : TaskInstance := ⟨"req-1", "psf/requests", none, 4⟩

/-- C1: evaluation of `run_install_task` on a declared install command.  A
zero exit returns True with `INSTALL_PASS` appended and a wall clock beyond
the stage timeout returns False with `INSTALL_TIMEOUT` appended, as the
claim states; but a non-zero exit does not return False with `INSTALL_FAIL`:
because the exec wrapper keeps `check=True` and re-raises, the
`CalledProcessError` escapes `run_install_task`, whose only handler catches
`TimeoutExpired`. -/
theorem run_install_task_outcomes :
    run_install_task installSpecMake activateTest (some 10) oraclePass =
      .ok (true, [.installSection (activateTest "make install") "ok" "",
                  .installPassLog]) ∧
    run_install_task installSpecMake activateTest (some 10) oracleSleep =
      .ok (false, [.installTimeoutLog]) ∧
    run_install_task installSpecMake activateTest (some 10) oracleFail2 =
      .error (.calledProcessError 2) := by
  refine ⟨?_, ?_, ?_⟩ <;> rfl

/-- C3: the reset and test stages catch every exception at the stage
boundary and return a boolean, but the install stage does not: a non-zero
exit of a pre-install command raises `CalledProcessError` and a pre-install
sleep beyond the stage timeout raises `TimeoutExpired`, and both escape
`run_install_task` because the pre-install loop sits outside its `try` and
the `try` only handles `TimeoutExpired` from the install command itself. -/
theorem install_stage_lets_exceptions_escape :
    reset_task_env true "abc123" (fun _ => .errors "disk error") =
      (false, [.resetFailedLog "abc123"]) ∧
    (run_tests_task "pytest tests/" activateTest (some 10)
      (fun _ => .errors "oom")).1 = false ∧
    run_install_task installSpecPre activateTest (some 10) oracleFail1 =
      .error (.calledProcessError 1) ∧
    run_install_task installSpecPre activateTest (some 10) oracleSleep =
      .error .timeoutExpired := by
  refine ⟨?_, ?_, ?_, ?_⟩ <;> rfl

/-- C4: `TestbedContextManager.__exit__` cleans up the harness-created
working root and conda directory and stops then removes the harness-managed
container, but it never cleans up the harness-created opam temporary
directory, contradicting the claim. -/
theorem testbed_exit_skips_opam_dir :
    testbed_exit (some "/tmp/work") (some "/tmp/conda") (some "/tmp/opam")
        (some "coq__coq__docker-coq.8.15") =
      [.cleanupDir "/tmp/work", .cleanupDir "/tmp/conda",
       .execCmd "docker stop coq__coq__docker-coq.8.15",
       .execCmd "docker rm coq__coq__docker-coq.8.15"] ∧
    TeardownAction.cleanupDir "/tmp/opam" ∉
      testbed_exit (some "/tmp/work") (some "/tmp/conda") (some "/tmp/opam")
        (some "coq__coq__docker-coq.8.15") := by
  exact ⟨rfl, by decide⟩

/-- C6: `run_tests_task` classification.  A completed test command returns
True whatever the exit code, logging `TESTS_PASSED` on exit 0 and
`TESTS_FAILED` on exit 1; exceeding the timeout logs `TESTS_TIMEOUT` and any
other exception logs `TESTS_ERROR`, both returning False without
propagating. -/
theorem run_tests_task_classification (test_cmd : String)
    (activate : String → String) (timeout : Option Nat)
    (oracle : String → CmdBehavior) (out err msg : String) :
    (commandOutcome (oracle (activate test_cmd)) timeout = .completes ⟨0, out, err⟩ →
      run_tests_task test_cmd activate timeout oracle =
        (true, [.testScriptLog (activate test_cmd), .testOutputLog out err,
                .testsPassedLog])) ∧
    (commandOutcome (oracle (activate test_cmd)) timeout = .completes ⟨1, out, err⟩ →
      run_tests_task test_cmd activate timeout oracle =
        (true, [.testScriptLog (activate test_cmd), .testOutputLog out err,
                .testsFailedLog])) ∧
    (commandOutcome (oracle (activate test_cmd)) timeout = .timesOut →
      run_tests_task test_cmd activate timeout oracle =
        (false, [.testScriptLog (activate test_cmd), .testsTimeoutLog])) ∧
    (commandOutcome (oracle (activate test_cmd)) timeout = .errors msg →
      run_tests_task test_cmd activate timeout oracle =
        (false, [.testScriptLog (activate test_cmd), .testsErrorLog msg])) := by
  refine ⟨fun h => ?_, fun h => ?_, fun h => ?_, fun h => ?_⟩ <;>
    simp [run_tests_task, h, exec_call, subprocess_run]

/-- C6 witness: the four classifications at concrete inputs. -/
theorem run_tests_task_classification_witness :
    run_tests_task "pytest tests/" activateTest (some 10)
        (fun _ => .runs 3 ⟨0, "o", "e"⟩) =
      (true, [.testScriptLog (activateTest "pytest tests/"),
              .testOutputLog "o" "e", .testsPassedLog]) ∧
    run_tests_task "pytest tests/" activateTest (some 10)
        (fun _ => .runs 3 ⟨1, "o", "e"⟩) =
      (true, [.testScriptLog (activateTest "pytest tests/"),
              .testOutputLog "o" "e", .testsFailedLog]) ∧
    run_tests_task "pytest tests/" activateTest (some 10)
        (fun _ => .runs 99 ⟨0, "o", "e"⟩) =
      (false, [.testScriptLog (activateTest "pytest tests/"),
               .testsTimeoutLog]) ∧
    run_tests_task "pytest tests/" activateTest (some 10)
        (fun _ => .errors "oom") =
      (false, [.testScriptLog (activateTest "pytest tests/"),
               .testsErrorLog "oom"]) :=
  ⟨(run_tests_task_classification "pytest tests/" activateTest (some 10)
      (fun _ => .runs 3 ⟨0, "o", "e"⟩) "o" "e" "oom").1 rfl,
   (run_tests_task_classification "pytest tests/" activateTest (some 10)
      (fun _ => .runs 3 ⟨1, "o", "e"⟩) "o" "e" "oom").2.1 rfl,
   (run_tests_task_classification "pytest tests/" activateTest (some 10)
      (fun _ => .runs 99 ⟨0, "o", "e"⟩) "o" "e" "oom").2.2.1 rfl,
   (run_tests_task_classification "pytest tests/" activateTest (some 10)
      (fun _ => .errors "oom") "o" "e" "oom").2.2.2 rfl⟩

/-- C7: for a non-None patch, `apply_patch` removes its temporary patch file
before returning, on the success path and on the failure path of the
patch-apply command alike. -/
theorem apply_patch_removes_temp_file {T : Type}
    (sem : String → Bool → T → Option T)
    (instance_id testbed patch_type p : String) (revert : Bool)
    (s : WorkState T) :
    patchPath instance_id testbed patch_type ∉
      (apply_patch sem instance_id testbed (some p) patch_type revert s).2.files := by
  cases h : sem p revert s.tree <;>
    simp [apply_patch, h, fsRemove, List.mem_filter]

/-- C7 witness: the temporary file is gone at a concrete input even though
it was present on disk before the call. -/
theorem apply_patch_removes_temp_file_witness :
    patchPath "astropy-123" "/testbed/astropy__astropy__1.3" "test" ∉
      (apply_patch (fun _ _ (t : Int) => some t) "astropy-123"
        "/testbed/astropy__astropy__1.3" (some "diff") "test" false
        ⟨["/testbed/temp_astropy-123_test.patch"], 0, []⟩).2.files :=
  apply_patch_removes_temp_file _ _ _ _ _ _ _

/-- C8: `apply_patch` with a `None` patch returns False, appends the
`APPLY_PATCH_FAIL` record for a missing prediction, and changes neither the
files on disk nor the working tree. -/
theorem apply_patch_none_no_filesystem_change {T : Type}
    (sem : String → Bool → T → Option T)
    (instance_id testbed patch_type : String) (revert : Bool)
    (s : WorkState T) :
    apply_patch sem instance_id testbed none patch_type revert s =
      (false, { s with log := s.log ++ [.applyPatchFailNoneLog] }) := rfl

/-- C9: a forward `apply_patch` followed immediately by `apply_patch` with
`revert=True` on the same patch text restores the tracked working tree,
modelling the external `git apply` call as a semantics for which a reverse
apply undoes a successful forward apply and a failed apply leaves the tree
unchanged. -/
theorem apply_patch_revert_restores {T : Type}
    (sem : String → Bool → T → Option T)
    (hinv : ∀ p t t2, sem p false t = some t2 → sem p true t2 = some t)
    (instance_id testbed patch_type p : String) (s : WorkState T)
    (hfwd : (apply_patch sem instance_id testbed (some p) patch_type false s).1 = true) :
    (apply_patch sem instance_id testbed (some p) patch_type true
      (apply_patch sem instance_id testbed (some p) patch_type false s).2).2.tree
      = s.tree := by
  cases h : sem p false s.tree with
  | none => simp [apply_patch, h] at hfwd
  | some t2 =>
    have h2 := hinv p s.tree t2 h
    simp [apply_patch, h, h2]

/-- C9 witness: the round trip at a concrete integer-tree semantics. -/
theorem apply_patch_revert_restores_witness :
    (apply_patch semShift "sympy-1" "/tb/sympy__sympy__1.0" (some "diff")
      "pred" true
      (apply_patch semShift "sympy-1" "/tb/sympy__sympy__1.0" (some "diff")
        "pred" false ⟨[], (5 : Int), []⟩).2).2.tree
      = (⟨[], (5 : Int), []⟩ : WorkState Int).tree :=
  apply_patch_revert_restores semShift
    (by intro p t t2 h; simp [semShift] at h ⊢; omega)
    "sympy-1" "/tb/sympy__sympy__1.0" "pred" "diff" ⟨[], (5 : Int), []⟩ rfl

/-- C10: entering a task environment truncates the per-instance log file:
whatever the filesystem previously held at the log path, afterwards the file
holds exactly the fresh metadata header; and the log path is
`log_dir/instance_id.log`, or `log_dir/instance_id.model.eval.log` in
evaluation mode. -/
theorem task_env_enter_truncates_log (fs : String → Option String)
    (log_dir instance_id model testbed venv : String) (is_eval : Bool) :
    task_env_enter fs log_dir instance_id model testbed venv is_eval
        (log_file_name log_dir instance_id model is_eval) =
      some (logHeader instance_id testbed venv model is_eval) ∧
    log_file_name log_dir instance_id model false =
      log_dir ++ "/" ++ instance_id ++ ".log" ∧
    log_file_name log_dir instance_id model true =
      log_dir ++ "/" ++ instance_id ++ "." ++ model ++ ".eval.log" := by
  refine ⟨?_, rfl, rfl⟩
  simp [task_env_enter]

/-- C2 counterexample: re-running provisioning for a container-backed group
whose environment name is already in the container list is not idempotent.
The loop body removes the existing container with `docker rm` and then
recreates it with `docker run`, so the executed command list is non-empty
and the existing environment is destroyed, contradicting the claim for the
container back-end. -/
theorem provisioning_rerun_container_executes_commands :
    setupGroupCmds "coq/coq" "docker-coq.8.15" { } true
        [] ["coq__coq__docker-coq.8.15"] []
        "conda" "/opt/conda/bin/activate" "opam" "" "/testbed" "reqs.txt" =
      [.runShell "docker rm coq__coq__docker-coq.8.15",
       .runShell ("docker run -d --name coq__coq__docker-coq.8.15 " ++
         "coqorg/coq:8.15 -v /testbed/coq__coq__docker-coq.8.15:/home/coq/workdir")] ∧
    setupGroupCmds "coq/coq" "docker-coq.8.15" { } true
        [] ["coq__coq__docker-coq.8.15"] []
        "conda" "/opt/conda/bin/activate" "opam" "" "/testbed" "reqs.txt" ≠ [] := by
  exact ⟨by decide, by decide⟩

/-- C2 amended: for the package-environment and opam-switch back-ends,
re-running provisioning against an existing environment (with the repo
checkout already present) executes zero creation or installation commands
and leaves the environment untouched; for the container back-end, the
existing container is removed with `docker rm` and the recipe recreates
it. -/
theorem provisioning_rerun_skips_existing (repo version : String)
    (install : InstallSpecEntry)
    (switch_list container_list env_list : List String)
    (exec_cmd path_activate opam_exec_cmd root_arg testbed path_to_reqs : String) :
    (strStartsWith version "coq." = true →
      envName repo version ∈ switch_list →
      setupGroupCmds repo version install true switch_list container_list env_list
        exec_cmd path_activate opam_exec_cmd root_arg testbed path_to_reqs = []) ∧
    (strStartsWith version "coq." = false → strStartsWith version "docker-coq." = false →
      envName repo version ∈ env_list →
      setupGroupCmds repo version install true switch_list container_list env_list
        exec_cmd path_activate opam_exec_cmd root_arg testbed path_to_reqs = []) ∧
    (strStartsWith version "coq." = false → strStartsWith version "docker-coq." = true →
      envName repo version ∈ container_list →
      setupGroupCmds repo version install true switch_list container_list env_list
        exec_cmd path_activate opam_exec_cmd root_arg testbed path_to_reqs =
        .runShell ("docker rm " ++ envName repo version) ::
          recipeCmds repo version install exec_cmd path_activate opam_exec_cmd
            root_arg testbed path_to_reqs) := by
  refine ⟨fun h1 h2 => ?_, fun h1 h2 h3 => ?_, fun h1 h2 h3 => ?_⟩
  · simp [setupGroupCmds, h1, h2]
  · simp [setupGroupCmds, h1, h2, h3]
  · simp [setupGroupCmds, h1, h2, h3]

/-- C2 witness: the three amended cases at concrete inputs. -/
theorem provisioning_rerun_skips_existing_witness :
    setupGroupCmds "coq/coq" "coq.8.15" { } true
        ["coq__coq__coq.8.15"] [] []
        "conda" "/opt/conda/bin/activate" "opam" "" "/testbed" "reqs.txt" = [] ∧
    setupGroupCmds "sympy/sympy" "1.0" { } true
        [] [] ["sympy__sympy__1.0"]
        "conda" "/opt/conda/bin/activate" "opam" "" "/testbed" "reqs.txt" = [] ∧
    setupGroupCmds "coq/coq" "docker-coq.8.15" { } true
        [] ["coq__coq__docker-coq.8.15"] []
        "conda" "/opt/conda/bin/activate" "opam" "" "/testbed" "reqs.txt" =
      .runShell ("docker rm " ++ envName "coq/coq" "docker-coq.8.15") ::
        recipeCmds "coq/coq" "docker-coq.8.15" { } "conda"
          "/opt/conda/bin/activate" "opam" "" "/testbed" "reqs.txt" :=
  ⟨(provisioning_rerun_skips_existing "coq/coq" "coq.8.15" { }
      ["coq__coq__coq.8.15"] [] [] "conda" "/opt/conda/bin/activate" "opam" ""
      "/testbed" "reqs.txt").1 (by decide) (by decide),
   (provisioning_rerun_skips_existing "sympy/sympy" "1.0" { }
      [] [] ["sympy__sympy__1.0"] "conda" "/opt/conda/bin/activate" "opam" ""
      "/testbed" "reqs.txt").2.1 (by decide) (by decide) (by decide),
   (provisioning_rerun_skips_existing "coq/coq" "docker-coq.8.15" { }
      [] ["coq__coq__docker-coq.8.15"] [] "conda" "/opt/conda/bin/activate"
      "opam" "" "/testbed" "reqs.txt").2.2 (by decide) (by decide) (by decide)⟩

/-- Appending an instance to a version-group map adds exactly that instance
to its flattened contents, up to permutation. -/
theorem flattenVersionGroups_add (vgs : VersionGroups) (v : Option String)
    (i : TaskInstance) :
    List.Perm (flattenVersionGroups (addToVersionGroups vgs v i))
      (i :: flattenVersionGroups vgs) := by
  induction vgs with
  | nil => simp [addToVersionGroups, flattenVersionGroups]
  | cons hd tl ih =>
    obtain ⟨v2, is2⟩ := hd
    by_cases h : v2 = v
    · simp only [addToVersionGroups, if_pos h, flattenVersionGroups,
        List.flatMap_cons]
      have : is2 ++ [i] ++ tl.flatMap Prod.snd = is2 ++ i :: tl.flatMap Prod.snd := by
        simp
      rw [this]
      exact List.perm_middle
    · simp only [addToVersionGroups, if_neg h, flattenVersionGroups,
        List.flatMap_cons]
      refine ((ih.append_left is2)).trans ?_
      exact List.perm_middle

/-- Appending an instance to the grouped structure adds exactly that
instance to its flattened contents, up to permutation. -/
theorem flattenRepoGroups_add (rgs : RepoGroups) (i : TaskInstance) :
    List.Perm (flattenRepoGroups (addToRepoGroups rgs i))
      (i :: flattenRepoGroups rgs) := by
  induction rgs with
  | nil =>
    simp [addToRepoGroups, flattenRepoGroups, flattenVersionGroups]
  | cons hd tl ih =>
    obtain ⟨r, vgs⟩ := hd
    by_cases h : r = i.repo
    · simp only [addToRepoGroups, if_pos h, flattenRepoGroups, List.flatMap_cons]
      exact (flattenVersionGroups_add vgs i.version i).append_right _
    · simp only [addToRepoGroups, if_neg h, flattenRepoGroups, List.flatMap_cons]
      refine (ih.append_left (flattenVersionGroups vgs)).trans ?_
      exact List.perm_middle

/-- The grouping fold preserves the instances: flattening the groups built
from a list is a permutation of the accumulator contents plus the list. -/
theorem flattenRepoGroups_foldl (l : List TaskInstance) (acc : RepoGroups) :
    List.Perm (flattenRepoGroups (l.foldl addToRepoGroups acc))
      (flattenRepoGroups acc ++ l) := by
  induction l generalizing acc with
  | nil => simp
  | cons i rest ih =>
    simp only [List.foldl_cons]
    refine (ih (addToRepoGroups acc i)).trans ?_
    refine ((flattenRepoGroups_add acc i).append_right rest).trans ?_
    exact List.perm_middle.symm

/-- `addToVersionGroups` preserves version-group well-formedness when the
inserted instance carries the ambient repo and the inserted version key. -/
theorem VGWF_add (r : String) (i : TaskInstance) (hr : i.repo = r) :
    ∀ vgs : VersionGroups, VGWF r vgs → VGWF r (addToVersionGroups vgs i.version i) := by
  intro vgs
  induction vgs with
  | nil =>
    intro _ v is2 hm j hj
    simp only [addToVersionGroups, List.mem_singleton, Prod.mk.injEq] at hm
    obtain ⟨rfl, rfl⟩ := hm
    simp only [List.mem_singleton] at hj
    subst hj
    exact ⟨hr, rfl⟩
  | cons hd tl ih =>
    intro h v is2 hm j hj
    obtain ⟨v2, is0⟩ := hd
    have htl : VGWF r tl := fun v3 is3 hm3 => h v3 is3 (List.mem_cons_of_mem _ hm3)
    by_cases hv2 : v2 = i.version
    · simp only [addToVersionGroups, if_pos hv2, List.mem_cons, Prod.mk.injEq] at hm
      rcases hm with ⟨rfl, rfl⟩ | hm
      · rcases List.mem_append.mp hj with hj2 | hj2
        · exact h v is0 (List.mem_cons_self _ _) j hj2
        · simp only [List.mem_singleton] at hj2
          subst hj2
          exact ⟨hr, hv2.symm⟩
      · exact htl v is2 hm j hj
    · simp only [addToVersionGroups, if_neg hv2, List.mem_cons, Prod.mk.injEq] at hm
      rcases hm with ⟨rfl, rfl⟩ | hm
      · exact h v is2 (List.mem_cons_self _ _) j hj
      · exact ih htl v is2 hm j hj

/-- `addToRepoGroups` preserves well-formedness of the grouped structure. -/
theorem RGWF_add (i : TaskInstance) :
    ∀ rgs : RepoGroups, RGWF rgs → RGWF (addToRepoGroups rgs i) := by
  intro rgs
  induction rgs with
  | nil =>
    intro _ r vgs hm
    simp only [addToRepoGroups, List.mem_singleton, Prod.mk.injEq] at hm
    obtain ⟨rfl, rfl⟩ := hm
    intro v is2 hm2 j hj
    simp only [List.mem_singleton, Prod.mk.injEq] at hm2
    obtain ⟨rfl, rfl⟩ := hm2
    simp only [List.mem_singleton] at hj
    subst hj
    exact ⟨rfl, rfl⟩
  | cons hd tl ih =>
    intro h r vgs hm
    obtain ⟨r2, vgs2⟩ := hd
    have htl : RGWF tl := fun r3 v3 hm3 => h r3 v3 (List.mem_cons_of_mem _ hm3)
    by_cases hr2 : r2 = i.repo
    · simp only [addToRepoGroups, if_pos hr2, List.mem_cons, Prod.mk.injEq] at hm
      rcases hm with ⟨rfl, rfl⟩ | hm
      · exact VGWF_add r i hr2.symm vgs2 (h r vgs2 (List.mem_cons_self _ _))
      · exact htl r vgs hm
    · simp only [addToRepoGroups, if_neg hr2, List.mem_cons, Prod.mk.injEq] at hm
      rcases hm with ⟨rfl, rfl⟩ | hm
      · exact h r vgs (List.mem_cons_self _ _)
      · exact ih htl r vgs hm

/-- Every grouped structure the grouping fold produces is well-formed. -/
theorem RGWF_foldl (l : List TaskInstance) :
    ∀ acc : RepoGroups, RGWF acc → RGWF (l.foldl addToRepoGroups acc) := by
  induction l with
  | nil => intro acc h; exact h
  | cons i rest ih =>
    intro acc h
    exact ih (addToRepoGroups acc i) (RGWF_add i acc h)

/-- Flattening one filtered version-group map equals filtering its flattened
contents, because all instances under a version key share that key. -/
theorem flattenVersionGroups_filter (has_spec : String → String → Bool)
    (r : String) (vgs : VersionGroups) (h : VGWF r vgs) :
    flattenVersionGroups (vgs.filter (fun vg => keepVersion has_spec r vg.1)) =
      (flattenVersionGroups vgs).filter (keepInstance has_spec) := by
  induction vgs with
  | nil => rfl
  | cons hd tl ih =>
    obtain ⟨v, is2⟩ := hd
    have hhd : ∀ i ∈ is2, i.repo = r ∧ i.version = v :=
      h v is2 (List.mem_cons_self _ _)
    have htl : VGWF r tl := fun v3 is3 hm3 => h v3 is3 (List.mem_cons_of_mem _ hm3)
    have hconst : ∀ i ∈ is2, keepInstance has_spec i = keepVersion has_spec r v := by
      intro i hi
      obtain ⟨h1, h2⟩ := hhd i hi
      simp [keepInstance, h1, h2]
    have hfilter : is2.filter (keepInstance has_spec) =
        is2.filter (fun _ => keepVersion has_spec r v) := List.filter_congr hconst
    have hflat : flattenVersionGroups ((v, is2) :: tl) =
        is2 ++ flattenVersionGroups tl := rfl
    rw [hflat, List.filter_append, hfilter]
    cases hc : keepVersion has_spec r v with
    | false =>
      simp only [List.filter_cons, hc, List.filter_false, List.nil_append]
      exact ih htl
    | true =>
      simp only [List.filter_cons, hc, if_true, List.filter_true]
      have hflat2 : flattenVersionGroups
          ((v, is2) :: tl.filter (fun vg => keepVersion has_spec r vg.1)) =
          is2 ++ flattenVersionGroups (tl.filter (fun vg => keepVersion has_spec r vg.1)) := rfl
      rw [hflat2, ih htl]

/-- Flattening the custom-restraints filter of a well-formed grouping equals
filtering the flattened grouping by instance survival. -/
theorem flattenRepoGroups_custom_restraints (has_spec : String → String → Bool) :
    ∀ rgs : RepoGroups, RGWF rgs →
    flattenRepoGroups (custom_restraints has_spec rgs) =
      (flattenRepoGroups rgs).filter (keepInstance has_spec) := by
  intro rgs
  induction rgs with
  | nil => intro _; rfl
  | cons hd tl ih =>
    intro h
    obtain ⟨r, vgs⟩ := hd
    have hhd : VGWF r vgs := h r vgs (List.mem_cons_self _ _)
    have htl : RGWF tl := fun r3 v3 hm3 => h r3 v3 (List.mem_cons_of_mem _ hm3)
    have e1 : custom_restraints has_spec ((r, vgs) :: tl) =
        (r, vgs.filter (fun vg => keepVersion has_spec r vg.1)) ::
          custom_restraints has_spec tl := rfl
    have e2 : ∀ (x : String × VersionGroups) (xs : RepoGroups),
        flattenRepoGroups (x :: xs) =
          flattenVersionGroups x.2 ++ flattenRepoGroups xs := fun x xs => rfl
    rw [e1, e2, e2, List.filter_append, ih htl,
      flattenVersionGroups_filter has_spec r vgs hhd]

/-- C5: the grouping built by `TestbedContextManager.__init__` followed by
the custom-restraints filter partitions the filtered input.  The instances
contained in the surviving groups are a permutation of exactly those input
instances whose (repo, version) key survives the filter, and no instance can
sit in two distinct groups, because every group holds only instances whose
repo and version equal the group keys. -/
theorem grouping_partitions_input (l : List TaskInstance)
    (has_spec : String → String → Bool) :
    List.Perm
      (flattenRepoGroups (custom_restraints has_spec
        (group_task_instances (sortTaskInstances l))))
      (l.filter (keepInstance has_spec)) ∧
    (∀ r vgs v is2 r2 vgs2 v2 is3 i,
      (r, vgs) ∈ group_task_instances (sortTaskInstances l) →
      (v, is2) ∈ vgs →
      (r2, vgs2) ∈ group_task_instances (sortTaskInstances l) →
      (v2, is3) ∈ vgs2 →
      i ∈ is2 → i ∈ is3 → r = r2 ∧ v = v2) := by
  have hwf : RGWF (group_task_instances (sortTaskInstances l)) :=
    RGWF_foldl (sortTaskInstances l) [] (fun r vgs hm => absurd hm (List.not_mem_nil _))
  constructor
  · rw [flattenRepoGroups_custom_restraints has_spec _ hwf]
    have h2 : List.Perm
        (flattenRepoGroups (group_task_instances (sortTaskInstances l)))
        (sortTaskInstances l) := by
      simpa using flattenRepoGroups_foldl (sortTaskInstances l) []
    have h3 : List.Perm (sortTaskInstances l) l := List.mergeSort_perm l _
    exact (h2.trans h3).filter _
  · intro r vgs v is2 r2 vgs2 v2 is3 i hm1 hm2 hm3 hm4 hi1 hi2
    obtain ⟨e1, e2⟩ := hwf r vgs hm1 v is2 hm2 i hi1
    obtain ⟨e3, e4⟩ := hwf r2 vgs2 hm3 v2 is3 hm4 i hi2
    exact ⟨e1.symm.trans e3, e2.symm.trans e4⟩

/-- C5 witness: the partition at a concrete three-instance list in which one
instance is dropped because its version is missing. -/
theorem grouping_partitions_input_witness :
    List.Perm
      (flattenRepoGroups (custom_restraints hasSpecW
        (group_task_instances (sortTaskInstances [instA, instB, instC]))))
      ([instA, instB, instC].filter (keepInstance hasSpecW)) :=
  (grouping_partitions_input [instA, instB, instC] hasSpecW).1
